import Mathlib

/-!
Verification development for `detect.py` of the yolov5-rt-stack repository.

The file shallowly embeds the detection-result processing pipeline of
`src/detect.py`: the per-frame function `overlay_boxes` (lines 28-64), the
driver loop of `main` (lines 67-113), and the startup palette construction
(line 96).  Machine reals are modelled as exact rationals, the file system as
explicit maps threaded through the functions, and Python's dynamic failures
(NameError, IndexError, unbound locals) as explicit error values.
-/

/-- Dynamic errors of the Python runtime that the code under scrutiny can
raise: an unresolved global name, an out-of-range sequence index, a call with
the wrong number of arguments, and reading a local variable that was never
assigned. -/
inductive PyErr where
  | nameError (n : String)
  | indexError
  | typeError
  | unboundLocal (n : String)
deriving DecidableEq, Repr

/-- A corner-form box `(xmin, ymin, xmax, ymax)` in absolute pixel
coordinates (glossary of the design document; `pred['boxes']` rows in
`detect.py`). -/
structure BoxXYXY where
  xmin : ℚ
  ymin : ℚ
  xmax : ℚ
  ymax : ℚ
deriving DecidableEq, Repr

/-- A center-form box `(cx, cy, w, h)`. -/
structure BoxCXCYWH where
  cx : ℚ
  cy : ℚ
  w : ℚ
  h : ℚ
deriving DecidableEq, Repr

/-- Modelled from the spec: `box_xyxy_to_cxcywh` is imported by `detect.py`
from `utils.general`, a module of this repository that is not part of the
sources under review.  The Coordinate Normalizer contract of the design
document (section 4.1) defines it on a corner-form box and the frame's
`(width, height)` as `cx=(xmin+xmax)/2/W`, `cy=(ymin+ymax)/2/H`,
`w=(xmax-xmin)/W`, `h=(ymax-ymin)/H`, with no clamping. -/
def box_xyxy_to_cxcywh (b : BoxXYXY) (W H : ℚ) : BoxCXCYWH :=
  { cx := (b.xmin + b.xmax) / 2 / W
    cy := (b.ymin + b.ymax) / 2 / H
    w := (b.xmax - b.xmin) / W
    h := (b.ymax - b.ymin) / H }

/-- `torch.round` of one scalar: round half to even (banker's rounding), the
rounding applied to `pred['boxes']` at line 38 of `detect.py`. -/
def roundEven (q : ℚ) : ℤ :=
  let f := ⌊q⌋
  let r := q - (f : ℚ)
  if r < 1 / 2 then f
  else if 1 / 2 < r then f + 1
  else if 2 ∣ f then f else f + 1

/-- Rounding of one coordinate, back into the rational coordinate space. -/
def roundQ (q : ℚ) : ℚ := (roundEven q : ℚ)

/-- `box.round()` applied to one corner-form box (line 38 of `detect.py`). -/
def roundBox (b : BoxXYXY) : BoxXYXY :=
  { xmin := roundQ b.xmin, ymin := roundQ b.ymin
    xmax := roundQ b.xmax, ymax := roundQ b.ymax }

/-- One per-image prediction of the detector: the dict
`{'boxes': ..., 'scores': ..., 'labels': ...}` of three parallel tensors that
`detect.py` reads at line 38 (`pred['boxes']`, `pred['scores']`,
`pred['labels']`).  An empty Frame Detection Set is the same dict with all
three tensors empty. -/
structure Prediction where
  boxes : List BoxXYXY
  scores : List ℚ
  labels : List ℕ
deriving DecidableEq, Repr

/-- `len(pred)` at line 36 of `detect.py`: `pred` is the per-image dict of
three keys, so Python's `len` counts its keys and always returns `3` —
it does not count detections. -/
def predDictLen (_p : Prediction) : ℕ := 3

/-- One drawing primitive left on a frame by `plot_one_box`: rectangle plus
text label in a fixed color and line thickness. -/
structure Draw where
  box : BoxXYXY
  label : String
  color : List ℕ
  thickness : ℕ
deriving DecidableEq, Repr

/-- The original-resolution frame: its dimensions (`img.shape[:2]` is
`(height, width)`), an abstract identifier of the underlying raster content,
and the list of overlays drawn onto it in place. -/
structure Frame where
  height : ℚ
  width : ℚ
  pix : ℕ
  draws : List Draw
deriving DecidableEq, Repr

/-- Modelled from the spec: `plot_one_box` is imported by `detect.py` from
`utils.general`, not part of the sources under review.  The Overlay Renderer
contract (section 4.3) draws one rectangle at the box's absolute coordinates
with the given label text, color and line thickness, mutating the frame in
place; we record the drawing on the frame's overlay list. -/
def plot_one_box (b : BoxXYXY) (f : Frame) (label : String) (color : List ℕ)
    (thickness : ℕ) : Frame :=
  { f with draws := f.draws ++ [{ box := b, label := label, color := color, thickness := thickness }] }

/-- The observable file system: text files as lists of appended lines, image
files as an overwritable store, and video sinks as append-only lists of
frames.  `detect.py` writes text files in append mode (line 50) and images
via `cv2.imwrite` (line 62); it never creates a video writer, and the `vid`
component exists so that this absence is expressible. -/
structure FS where
  txt : String → List String
  img : String → Option Frame
  vid : String → List Frame

/-- Output side effects in the order they happen.  `vidWrite` and `display`
are never emitted by the embedded code: `detect.py` contains no
`cv2.VideoWriter` and no `cv2.imshow`/`cv2.waitKey` call. -/
inductive OutEvent where
  | printLine (s : String)
  | txtLine (file : String) (line : String)
  | imgWrite (file : String)
  | vidWrite (file : String)
  | display
deriving DecidableEq, Repr

/-- Recognizer for `txtLine` events. -/
def isTxtLine : OutEvent → Bool
  | OutEvent.txtLine _ _ => true
  | _ => false

/-- Recognizer for `display` events. -/
def isDisplay : OutEvent → Bool
  | OutEvent.display => true
  | _ => false

/-- The flattened run configuration `args`, as `main` has populated it by the
time the loop runs: CLI flags plus the fields `main` adds in place
(`webcam` line 76, `mode` line 92, `names` line 95, `colors` line 96). -/
structure Args where
  webcam : Bool
  output_dir : String
  names : List String
  colors : List (List ℕ)
  save_txt : Bool
  save_img : Bool
  view_img : Bool
  mode : String
deriving DecidableEq, Repr

/-- The mutable state threaded through `overlay_boxes`: the file system, the
event trace, the frame being annotated in place, and the latest values of the
loop-local variables `boxes, scores, labels` of line 38 (`none` while they
are still unassigned). -/
structure ObState where
  fs : FS
  ev : List OutEvent
  img : Frame
  lastPred : Option Prediction

/-- `Path(p).name`: the final path component. -/
def pathName (p : String) : String := (p.splitOn "/").getLastD p

/-- Drop the final dot-extension of a file name, if any. -/
def dropExt (s : String) : String :=
  let parts := s.splitOn "."
  if parts.length ≤ 1 then s else String.intercalate "." parts.dropLast

/-- `Path(p).stem`: final component without its extension. -/
def pathStem (p : String) : String := dropExt (pathName p)

/-- `Path(a).joinpath(b)`. -/
def joinPath (a b : String) : String := a ++ "/" ++ b

/-- Rendering of one numeric value by Python's `'%g'` format.  The decimal
printing of `'%g'` is abstracted to the exact rational rendering; the claims
under review depend on the line structure, not on the digit strings. -/
def fmtG (q : ℚ) : String := toString q

/-- Rendering by `'%.2f'` (confidence in the overlay label, line 54),
abstracted to the exact value of the scaled rounding. -/
def fmt2 (q : ℚ) : String := toString (roundEven (q * 100))

/-- Rendering by `'%.3f'` (per-frame time, line 58), abstracted likewise. -/
def fmt3 (q : ℚ) : String := toString (roundEven (q * 1000))

/-- The label line written for one detection at line 51 of `detect.py`:
`('%g ' * 5 + '\n') % (cls_name, *xywh)`, i.e. the class id and the four
center-form coordinates, each followed by one space, then a newline. -/
def renderLine (cls : ℕ) (c : BoxCXCYWH) : String :=
  toString cls ++ " " ++ fmtG c.cx ++ " " ++ fmtG c.cy ++ " "
    ++ fmtG c.w ++ " " ++ fmtG c.h ++ " \n"

/-- The largest element of a list of naturals (0 for the empty list). -/
def listMax (l : List ℕ) : ℕ := l.foldr max 0

/-- `labels.unique()` at line 41 of `detect.py`: `torch.Tensor.unique` with
its default `sorted=True` returns the distinct values in ascending order.  We
realise that observable result as the ascending enumeration of the values
present in the list. -/
def sortedUnique (l : List ℕ) : List ℕ :=
  (List.range (listMax l + 1)).filter (fun c => l.contains c)

/-- `(labels == c).sum()` at line 42: the number of detections of class `c`. -/
def countEq (l : List ℕ) (c : ℕ) : ℕ := (l.filter (fun x => x = c)).length

/-- One appended summary item, `'%g %ss, ' % (n, args.names[int(c)])` of
line 43: the per-class count, a space, the class name, and the pluralizing
`"s, "`. -/
def summaryStep (names : List String) (labels : List ℕ) (s : String) (c : ℕ) : String :=
  s ++ toString (countEq labels c) ++ " " ++ names.getD c "" ++ "s, "

/-- The class summary fold of lines 41-43 of `detect.py`: for each distinct
label in the order produced by `unique()`, append one `summaryStep` item;
indexing the name table out of range raises `IndexError`. -/
def classSummary (names : List String) (labels : List ℕ) : Except PyErr String :=
  (sortedUnique labels).foldlM
    (fun s c =>
      if c < names.length then Except.ok (summaryStep names labels s c)
      else Except.error PyErr.indexError)
    ""

/-- The same fold written as a pure function, used to state what
`classSummary` returns when every label is a valid index. -/
def summaryStr (names : List String) (labels : List ℕ) : String :=
  (sortedUnique labels).foldl (summaryStep names labels) ""

/-- Keep the first occurrence of every value, in encounter order.  This is the
order the design document ascribes to the Class Aggregator; it is compared
against the sorted order the code actually produces. -/
def firstOccurrences : List ℕ → List ℕ
  | [] => []
  | x :: xs => x :: (firstOccurrences xs).filter (fun y => ¬ y = x)

/-- Modelled from the spec (section 4.2): the summary string built in the
order labels are first encountered, as the design document words it.  Used
only to exhibit the divergence from `classSummary`. -/
def specSummaryFirstEncounter (names : List String) (labels : List ℕ) : String :=
  (firstOccurrences labels).foldl (summaryStep names labels) ""

/-- The per-detection body of the write loop, lines 46-55 of `detect.py`.  If
`save_txt` is set the normalized label line is appended to
`'{txt_path}.txt'` (the file is opened in append mode) before any further
indexing happens; if `save_img` or `view_img` is set the box is drawn onto
the frame, indexing `args.names[int(cls_name)]` and then
`args.colors[int(cls_name)]`, either of which raises `IndexError` when out of
range. -/
def writeDet (args : Args) (txtPath : String) (st : ObState) (b : BoxXYXY)
    (conf : ℚ) (cls : ℕ) : ObState × Option PyErr :=
  let st1 :=
    if args.save_txt then
      let xywh := box_xyxy_to_cxcywh b st.img.width st.img.height
      { st with
        fs := { st.fs with
          txt := fun n =>
            if n = txtPath ++ ".txt" then st.fs.txt n ++ [renderLine cls xywh]
            else st.fs.txt n }
        ev := st.ev ++ [OutEvent.txtLine (txtPath ++ ".txt") (renderLine cls xywh)] }
    else st
  if args.save_img || args.view_img then
    if cls < args.names.length then
      if cls < args.colors.length then
        ({ st1 with
            img := plot_one_box b st1.img
              (args.names.getD cls "" ++ " " ++ fmt2 conf) (args.colors.getD cls []) 3 },
          none)
      else (st1, some PyErr.indexError)
    else (st1, some PyErr.indexError)
  else (st1, none)

/-- `zip(boxes, scores, labels)` of line 46, truncating to the shortest. -/
def zip3 {α β γ : Type} (as : List α) (bs : List β) (cs : List γ) :
    List (α × β × γ) :=
  (as.zip (bs.zip cs)).map (fun t => (t.1, t.2.1, t.2.2))

/-- The write loop of lines 46-55: `writeDet` for each detection in order,
stopping at the first raised error. -/
def writeLoop (args : Args) (txtPath : String) :
    List (BoxXYXY × ℚ × ℕ) → ObState → ObState × Option PyErr
  | [], st => (st, none)
  | t :: rest, st =>
    match writeDet args txtPath st t.1 t.2.1 t.2.2 with
    | (st1, some e) => (st1, some e)
    | (st1, none) => writeLoop args txtPath rest st1

/-- The console line of line 58: `'%sDone. (%.3fs)'`. -/
def doneMsg (tc : ℚ) : String := "Done. (" ++ fmt3 tc ++ "s)"

/-- The print string of one iteration: the webcam index prefixing of line 31,
the `'%gx%g '` frame dimensions of line 34, the class summary, and the
closing timing text of line 58. -/
def framePrint (args : Args) (tc : ℚ) (i : ℕ) (hgt wdt : ℚ) (s : String) : String :=
  (if args.webcam then toString i ++ ": " else "")
    ++ fmtG hgt ++ "x" ++ fmtG wdt ++ " " ++ s ++ doneMsg tc

/-- The tail of one loop iteration, lines 57-62: print the summary line, then
`cv2.imwrite(str(save_path), img)` when `save_img` is set and the source mode
is `'images'` — the only persisted media output in the file. -/
def finishFrame (args : Args) (savePath : String) (line : String) (st : ObState) :
    ObState × Option PyErr :=
  let st1 := { st with ev := st.ev ++ [OutEvent.printLine line] }
  if args.save_img = true ∧ args.mode = "images" then
    ({ st1 with
        fs := { st1.fs with
          img := fun n => if n = savePath then some st1.img else st1.fs.img n }
        ev := st1.ev ++ [OutEvent.imgWrite savePath] }, none)
  else (st1, none)

/-- One iteration of the `for i, pred in enumerate(detections)` loop of
`overlay_boxes` (lines 30-62).  The `len(pred) > 0` test of line 36 is on the
three-key prediction dict, the boxes are rounded (line 38) and bound together
with scores and labels (modelled in `lastPred`), the class summary of lines
41-43 runs before the write loop of lines 46-55, and the iteration closes
with the print and conditional image write of lines 57-62. -/
def procPred (args : Args) (path : String) (tc : ℚ) (i : ℕ)
    (pred : Option Prediction) (st : ObState) : ObState × Option PyErr :=
  let savePath := joinPath args.output_dir (pathName path)
  let txtPath := joinPath args.output_dir (pathStem path)
  match pred with
  | none =>
    finishFrame args savePath (framePrint args tc i st.img.height st.img.width "") st
  | some p =>
    if 0 < predDictLen p then
      let rp : Prediction :=
        { boxes := p.boxes.map roundBox, scores := p.scores, labels := p.labels }
      let st1 := { st with lastPred := some rp }
      match classSummary args.names p.labels with
      | Except.error e => (st1, some e)
      | Except.ok cSum =>
        match writeLoop args txtPath (zip3 rp.boxes rp.scores rp.labels) st1 with
        | (st2, some e) => (st2, some e)
        | (st2, none) =>
          finishFrame args savePath
            (framePrint args tc i st.img.height st.img.width cSum) st2
    else
      finishFrame args savePath (framePrint args tc i st.img.height st.img.width "") st

/-- The `enumerate(detections)` loop of `overlay_boxes`, stopping at the
first raised error. -/
def obLoop (args : Args) (path : String) (tc : ℚ) :
    ℕ → List (Option Prediction) → ObState → ObState × Option PyErr
  | _, [], st => (st, none)
  | i, pr :: rest, st =>
    match procPred args path tc i pr st with
    | (st1, some e) => (st1, some e)
    | (st1, none) => obLoop args path tc (i + 1) rest st1

/-- `overlay_boxes(detections, path, img, time_consume, args)` of
`detect.py` lines 28-64, with the file system threaded explicitly.  The
return statement of line 64 reads the loop-local variables
`boxes, scores, labels`; if no iteration assigned them (line 38 never ran)
Python raises `UnboundLocalError`. -/
def overlay_boxes (detections : List (Option Prediction)) (path : String)
    (img : Frame) (tc : ℚ) (args : Args) (fs : FS) :
    ObState × Except PyErr (List BoxXYXY × List ℚ × List ℕ) :=
  let st0 : ObState := { fs := fs, ev := [], img := img, lastPred := none }
  match obLoop args path tc 0 detections st0 with
  | (st, some e) => (st, Except.error e)
  | (st, none) =>
    match st.lastPred with
    | some p => (st, Except.ok (p.boxes, p.scores, p.labels))
    | none => (st, Except.error (PyErr.unboundLocal "boxes"))

/-- The names bound at module level in `detect.py`: the imports of lines
1-16 and the definitions of lines 19, 27 and 67. -/
def detectModuleNames : List String :=
  ["time", "Path", "random", "cv2", "torch", "LoadImages", "check_img_size",
   "box_xyxy_to_cxcywh", "plot_one_box", "set_logging", "yolov5",
   "get_coco_names", "overlay_boxes", "main"]

/-- The local variables of `main` that are assigned before the loop body of
line 103 executes its first statement. -/
def mainLocalNames : List String :=
  ["args", "device", "model", "is_half", "imgsz", "dataset", "t0", "img",
   "path", "im0s", "vid_cap"]

/-- The Python builtins referenced anywhere in `detect.py`. -/
def pyBuiltinNames : List String :=
  ["print", "open", "enumerate", "zip", "len", "int", "str", "range"]

/-- Name resolution inside `main`'s loop body: locals, then module globals,
then builtins. -/
def resolvable (n : String) : Bool :=
  mainLocalNames.contains n || detectModuleNames.contains n
    || pyBuiltinNames.contains n

/-- `overlay_boxes` is defined with five parameters
(`detections, path, img, time_consume, args`, line 28). -/
def overlayBoxesParamCount : ℕ := 5

/-- The call at line 108 passes six positional arguments
(`model_out, path, img, im0s, time_consume, args`). -/
def overlayBoxesCallArgCount : ℕ := 6

/-- The body of `for path, img, im0s, vid_cap in dataset:` (lines 103-108):
line 105 evaluates the name `inference`, which raises `NameError` when it is
not resolvable; were it resolvable, the call of `overlay_boxes` at line 108
would raise `TypeError` unless its argument count matched the parameter
count. -/
def mainLoopStep (_frame : ℕ) : Except PyErr Unit :=
  if resolvable "inference" then
    if overlayBoxesCallArgCount = overlayBoxesParamCount then Except.ok ()
    else Except.error PyErr.typeError
  else Except.error (PyErr.nameError "inference")

/-- The per-frame loop of `main`, returning how many frames were fully
processed, or the first unhandled error. -/
def runMainLoop : List ℕ → Except PyErr ℕ
  | [] => Except.ok 0
  | f :: fs =>
    match mainLoopStep f with
    | Except.error e => Except.error e
    | Except.ok _ => (runMainLoop fs).map (fun n => n + 1)

/-- Line 96 of `detect.py`:
`args.colors = [[random.randint(0, 255) for _ in range(3)] for _ in range(len(args.names))]`,
one freshly drawn RGB triple per class-name entry; `rand` supplies the
successive draws of `random.randint`. -/
def mkColors (names : List String) (rand : ℕ → ℕ) : List (List ℕ) :=
  (List.range names.length).map
    (fun i => (List.range 3).map (fun j => rand (3 * i + j) % 256))

/-- The label line produced for one zipped detection: `renderLine` on the
normalized center-form coordinates of its (already rounded) box. -/
def detLine (W H : ℚ) (t : BoxXYXY × ℚ × ℕ) : String :=
  renderLine t.2.2 (box_xyxy_to_cxcywh t.1 W H)

/-- The overlay produced for one zipped detection: its box, the
`'%s %.2f'` label of line 54, the palette color of its class, and the fixed
line thickness 3 of line 55. -/
def detDraw (args : Args) (t : BoxXYXY × ℚ × ℕ) : Draw :=
  { box := t.1
    label := args.names.getD t.2.2 "" ++ " " ++ fmt2 t.2.1
    color := args.colors.getD t.2.2 []
    thickness := 3 }

/-- An empty file system: no text lines, no images, no video frames. -/
def fs0 : FS := { txt := fun _ => [], img := fun _ => none, vid := fun _ => [] }

/-- A concrete 640x480 frame with no overlays. -/
def frame0 : Frame := { height := 480, width := 640, pix := 7, draws := [] }

/-- The first six COCO class names, a concrete Class Name Table. -/
def cocoNames6 : List String :=
  ["person", "bicycle", "car", "motorcycle", "airplane", "bus"]

/-- A concrete run configuration: images mode with both save flags set. -/
def args0 : Args :=
  { webcam := false, output_dir := "out", names := cocoNames6
    colors := [[0,0,255], [0,255,0], [255,0,0], [10,10,10], [20,20,20], [30,30,30]]
    save_txt := true, save_img := true, view_img := false, mode := "images" }

/-- The same configuration in video mode, saving images only. -/
def argsVideo : Args := { args0 with mode := "video", save_txt := false }

/-- The same configuration with only `view_img` set. -/
def argsView : Args :=
  { args0 with view_img := true, save_img := false, save_txt := false }

/-- One concrete detection of class 2 ("car") with confidence 0.9. -/
def pred1 : Prediction :=
  { boxes := [{ xmin := 10, ymin := 20, xmax := 110, ymax := 220 }]
    scores := [9/10], labels := [2] }

/-- A concrete detection whose label 9 exceeds `cocoNames6`'s last index. -/
def predBad : Prediction :=
  { boxes := [{ xmin := 0, ymin := 0, xmax := 1, ymax := 1 }]
    scores := [1/2], labels := [9] }

/-- A concrete initial state over `fs0` and `frame0`. -/
def st0 : ObState := { fs := fs0, ev := [], img := frame0, lastPred := none }

/-- A file system holding a stale image at `out/im.jpg`, for the
overwrite-on-second-run scenario. -/
def fsStale : FS :=
  { fs0 with img := fun n => if n = "out/im.jpg" then some frame0 else none }

/-- Decidable equality for `Except` results, so that closed runs of the
embedded pipeline can be checked by evaluation. -/
instance {e a : Type} [DecidableEq e] [DecidableEq a] : DecidableEq (Except e a) :=
  fun x y =>
    match x, y with
    | Except.ok u, Except.ok v => decidable_of_iff (u = v) (by simp)
    | Except.error u, Except.error v => decidable_of_iff (u = v) (by simp)
    | Except.ok _, Except.error _ => isFalse (fun h => Except.noConfusion h)
    | Except.error _, Except.ok _ => isFalse (fun h => Except.noConfusion h)

theorem mem_le_listMax {l : List ℕ} {a : ℕ} (h : a ∈ l) : a ≤ listMax l := by
  induction l with
  | nil => cases h
  | cons x xs ih =>
    rcases List.mem_cons.mp h with rfl | h'
    · exact Nat.le_max_left _ _
    · exact le_trans (ih h') (Nat.le_max_right _ _)

theorem mem_sortedUnique {l : List ℕ} {a : ℕ} : a ∈ sortedUnique l ↔ a ∈ l := by
  unfold sortedUnique
  simp only [List.mem_filter, List.mem_range]
  constructor
  · exact fun h => by simpa using h.2
  · exact fun h => ⟨Nat.lt_succ_of_le (mem_le_listMax h), by simpa using h⟩

theorem sortedUnique_sorted (l : List ℕ) : List.Sorted (· < ·) (sortedUnique l) :=
  List.Pairwise.filter _ (List.pairwise_lt_range _)

theorem sortedUnique_nodup (l : List ℕ) : (sortedUnique l).Nodup :=
  (List.nodup_range _).filter _

theorem summary_foldlM_ok (names : List String) (labels : List ℕ) :
    ∀ (cs : List ℕ) (s : String), (∀ c ∈ cs, c < names.length) →
      (cs.foldlM
        (fun s c =>
          if c < names.length then Except.ok (summaryStep names labels s c)
          else Except.error PyErr.indexError) s : Except PyErr String)
        = Except.ok (cs.foldl (summaryStep names labels) s)
  | [], _, _ => rfl
  | c :: cs, s, h => by
    have hc : c < names.length := h c (List.mem_cons_self c cs)
    have step :
        (List.foldlM
          (fun s c =>
            if c < names.length then Except.ok (summaryStep names labels s c)
            else Except.error PyErr.indexError) s (c :: cs) : Except PyErr String)
          = List.foldlM
            (fun s c =>
              if c < names.length then Except.ok (summaryStep names labels s c)
              else Except.error PyErr.indexError) (summaryStep names labels s c) cs := by
      simp only [List.foldlM_cons, if_pos hc]
      rfl
    rw [step, List.foldl_cons]
    exact summary_foldlM_ok names labels cs (summaryStep names labels s c)
      (fun d hd => h d (List.mem_cons_of_mem _ hd))

theorem summary_foldlM_err (names : List String) (labels : List ℕ) :
    ∀ (cs : List ℕ) (s : String) (bad : ℕ), bad ∈ cs → names.length ≤ bad →
      (cs.foldlM
        (fun s c =>
          if c < names.length then Except.ok (summaryStep names labels s c)
          else Except.error PyErr.indexError) s : Except PyErr String)
        = Except.error PyErr.indexError
  | [], _, _, hmem, _ => absurd hmem (List.not_mem_nil _)
  | c :: cs, s, bad, hmem, hge => by
    by_cases hc : c < names.length
    · have hbad : bad ∈ cs := by
        rcases List.mem_cons.mp hmem with rfl | h'
        · exact absurd hc (Nat.not_lt.mpr hge)
        · exact h'
      have step :
          (List.foldlM
            (fun s c =>
              if c < names.length then Except.ok (summaryStep names labels s c)
              else Except.error PyErr.indexError) s (c :: cs) : Except PyErr String)
            = List.foldlM
              (fun s c =>
                if c < names.length then Except.ok (summaryStep names labels s c)
                else Except.error PyErr.indexError) (summaryStep names labels s c) cs := by
        simp only [List.foldlM_cons, if_pos hc]
        rfl
      rw [step]
      exact summary_foldlM_err names labels cs _ bad hbad hge
    · simp only [List.foldlM_cons, if_neg hc]
      rfl

theorem classSummary_ok {names : List String} {labels : List ℕ}
    (h : ∀ c ∈ labels, c < names.length) :
    classSummary names labels = Except.ok (summaryStr names labels) := by
  unfold classSummary summaryStr
  exact summary_foldlM_ok names labels (sortedUnique labels) ""
    (fun c hc => h c (mem_sortedUnique.mp hc))

theorem classSummary_err {names : List String} {labels : List ℕ} {bad : ℕ}
    (hmem : bad ∈ labels) (hge : names.length ≤ bad) :
    classSummary names labels = Except.error PyErr.indexError := by
  unfold classSummary
  exact summary_foldlM_err names labels (sortedUnique labels) "" bad
    (mem_sortedUnique.mpr hmem) hge

theorem writeDet_fs_txt (args : Args) (tp : String) (st : ObState) (b : BoxXYXY)
    (conf : ℚ) (cls : ℕ) (n : String) :
    ((writeDet args tp st b conf cls).1.fs.txt n) =
      (if args.save_txt = true ∧ n = tp ++ ".txt"
       then st.fs.txt n ++ [detLine st.img.width st.img.height (b, conf, cls)]
       else st.fs.txt n) := by
  unfold writeDet
  by_cases hs : args.save_txt = true <;>
    by_cases hd : (args.save_img || args.view_img) = true <;>
      by_cases h1 : cls < args.names.length <;>
        by_cases h2 : cls < args.colors.length <;>
          simp [hs, hd, h1, h2, detLine] <;>
            by_cases hn : n = tp ++ ".txt" <;> simp [hn]

theorem writeDet_ev (args : Args) (tp : String) (st : ObState) (b : BoxXYXY)
    (conf : ℚ) (cls : ℕ) :
    (writeDet args tp st b conf cls).1.ev =
      st.ev ++
        (if args.save_txt = true
         then [OutEvent.txtLine (tp ++ ".txt") (detLine st.img.width st.img.height (b, conf, cls))]
         else []) := by
  unfold writeDet
  by_cases hs : args.save_txt = true <;>
    by_cases hd : (args.save_img || args.view_img) = true <;>
      by_cases h1 : cls < args.names.length <;>
        by_cases h2 : cls < args.colors.length <;>
          simp [hs, hd, h1, h2, detLine]

theorem writeDet_fs_img (args : Args) (tp : String) (st : ObState) (b : BoxXYXY)
    (conf : ℚ) (cls : ℕ) :
    (writeDet args tp st b conf cls).1.fs.img = st.fs.img := by
  unfold writeDet
  by_cases hs : args.save_txt = true <;>
    by_cases hd : (args.save_img || args.view_img) = true <;>
      by_cases h1 : cls < args.names.length <;>
        by_cases h2 : cls < args.colors.length <;>
          simp [hs, hd, h1, h2]

theorem writeDet_fs_vid (args : Args) (tp : String) (st : ObState) (b : BoxXYXY)
    (conf : ℚ) (cls : ℕ) :
    (writeDet args tp st b conf cls).1.fs.vid = st.fs.vid := by
  unfold writeDet
  by_cases hs : args.save_txt = true <;>
    by_cases hd : (args.save_img || args.view_img) = true <;>
      by_cases h1 : cls < args.names.length <;>
        by_cases h2 : cls < args.colors.length <;>
          simp [hs, hd, h1, h2]

theorem writeDet_lastPred (args : Args) (tp : String) (st : ObState) (b : BoxXYXY)
    (conf : ℚ) (cls : ℕ) :
    (writeDet args tp st b conf cls).1.lastPred = st.lastPred := by
  unfold writeDet
  by_cases hs : args.save_txt = true <;>
    by_cases hd : (args.save_img || args.view_img) = true <;>
      by_cases h1 : cls < args.names.length <;>
        by_cases h2 : cls < args.colors.length <;>
          simp [hs, hd, h1, h2]

theorem writeDet_dims (args : Args) (tp : String) (st : ObState) (b : BoxXYXY)
    (conf : ℚ) (cls : ℕ) :
    (writeDet args tp st b conf cls).1.img.height = st.img.height ∧
      (writeDet args tp st b conf cls).1.img.width = st.img.width := by
  unfold writeDet plot_one_box
  by_cases hs : args.save_txt = true <;>
    by_cases hd : (args.save_img || args.view_img) = true <;>
      by_cases h1 : cls < args.names.length <;>
        by_cases h2 : cls < args.colors.length <;>
          simp [hs, hd, h1, h2]

theorem writeDet_snd (args : Args) (tp : String) (st : ObState) (b : BoxXYXY)
    (conf : ℚ) (cls : ℕ) (h1 : cls < args.names.length) (h2 : cls < args.colors.length) :
    (writeDet args tp st b conf cls).2 = none := by
  unfold writeDet
  by_cases hs : args.save_txt = true <;>
    by_cases hd : (args.save_img || args.view_img) = true <;>
      simp [hs, hd, h1, h2]

theorem writeDet_img (args : Args) (tp : String) (st : ObState) (b : BoxXYXY)
    (conf : ℚ) (cls : ℕ) (h1 : cls < args.names.length) (h2 : cls < args.colors.length) :
    (writeDet args tp st b conf cls).1.img =
      (if (args.save_img || args.view_img) = true
       then { st.img with draws := st.img.draws ++ [detDraw args (b, conf, cls)] }
       else st.img) := by
  unfold writeDet plot_one_box
  by_cases hs : args.save_txt = true <;>
    by_cases hd : (args.save_img || args.view_img) = true <;>
      simp [hs, hd, h1, h2, detDraw]

theorem writeLoop_fs_img (args : Args) (tp : String) :
    ∀ (l : List (BoxXYXY × ℚ × ℕ)) (st : ObState),
      (writeLoop args tp l st).1.fs.img = st.fs.img
  | [], _ => rfl
  | t :: rest, st => by
    unfold writeLoop
    rcases hwd : writeDet args tp st t.1 t.2.1 t.2.2 with ⟨st1, e⟩
    have himg : st1.fs.img = st.fs.img := by
      have := writeDet_fs_img args tp st t.1 t.2.1 t.2.2
      rw [hwd] at this; exact this
    cases e with
    | some e => simpa using himg
    | none => simpa using (writeLoop_fs_img args tp rest st1).trans himg

theorem writeLoop_fs_vid (args : Args) (tp : String) :
    ∀ (l : List (BoxXYXY × ℚ × ℕ)) (st : ObState),
      (writeLoop args tp l st).1.fs.vid = st.fs.vid
  | [], _ => rfl
  | t :: rest, st => by
    unfold writeLoop
    rcases hwd : writeDet args tp st t.1 t.2.1 t.2.2 with ⟨st1, e⟩
    have hv : st1.fs.vid = st.fs.vid := by
      have := writeDet_fs_vid args tp st t.1 t.2.1 t.2.2
      rw [hwd] at this; exact this
    cases e with
    | some e => simpa using hv
    | none => simpa using (writeLoop_fs_vid args tp rest st1).trans hv

theorem writeLoop_ev_display (args : Args) (tp : String) :
    ∀ (l : List (BoxXYXY × ℚ × ℕ)) (st : ObState),
      (writeLoop args tp l st).1.ev.filter isDisplay = st.ev.filter isDisplay
  | [], _ => rfl
  | t :: rest, st => by
    unfold writeLoop
    rcases hwd : writeDet args tp st t.1 t.2.1 t.2.2 with ⟨st1, e⟩
    have hev0 : st1.ev =
        st.ev ++
          (if args.save_txt = true
           then [OutEvent.txtLine (tp ++ ".txt") (detLine st.img.width st.img.height (t.1, t.2.1, t.2.2))]
           else []) := by
      have := writeDet_ev args tp st t.1 t.2.1 t.2.2
      rw [hwd] at this; exact this
    have hev : st1.ev.filter isDisplay = st.ev.filter isDisplay := by
      rw [hev0, List.filter_append]
      by_cases hs : args.save_txt = true <;> simp [hs, isDisplay]
    cases e with
    | some e => simpa using hev
    | none => simpa using (writeLoop_ev_display args tp rest st1).trans hev

theorem writeLoop_lastPred (args : Args) (tp : String) :
    ∀ (l : List (BoxXYXY × ℚ × ℕ)) (st : ObState),
      (writeLoop args tp l st).1.lastPred = st.lastPred
  | [], _ => rfl
  | t :: rest, st => by
    unfold writeLoop
    rcases hwd : writeDet args tp st t.1 t.2.1 t.2.2 with ⟨st1, e⟩
    have hl : st1.lastPred = st.lastPred := by
      have := writeDet_lastPred args tp st t.1 t.2.1 t.2.2
      rw [hwd] at this; exact this
    cases e with
    | some e => simpa using hl
    | none => simpa using (writeLoop_lastPred args tp rest st1).trans hl

theorem writeLoop_dims (args : Args) (tp : String) :
    ∀ (l : List (BoxXYXY × ℚ × ℕ)) (st : ObState),
      (writeLoop args tp l st).1.img.height = st.img.height ∧
        (writeLoop args tp l st).1.img.width = st.img.width
  | [], _ => ⟨rfl, rfl⟩
  | t :: rest, st => by
    unfold writeLoop
    rcases hwd : writeDet args tp st t.1 t.2.1 t.2.2 with ⟨st1, e⟩
    have hd : st1.img.height = st.img.height ∧ st1.img.width = st.img.width := by
      have := writeDet_dims args tp st t.1 t.2.1 t.2.2
      rw [hwd] at this; exact this
    cases e with
    | some e => exact hd
    | none =>
      have ih := writeLoop_dims args tp rest st1
      exact ⟨by simpa using ih.1.trans hd.1, by simpa using ih.2.trans hd.2⟩

theorem writeLoop_snd (args : Args) (tp : String) :
    ∀ (l : List (BoxXYXY × ℚ × ℕ)) (st : ObState),
      (∀ t ∈ l, t.2.2 < args.names.length ∧ t.2.2 < args.colors.length) →
      (writeLoop args tp l st).2 = none
  | [], _, _ => rfl
  | t :: rest, st, h => by
    unfold writeLoop
    rcases hwd : writeDet args tp st t.1 t.2.1 t.2.2 with ⟨st1, e⟩
    have hb := h t (List.mem_cons_self t rest)
    have hsnd : e = none := by
      have := writeDet_snd args tp st t.1 t.2.1 t.2.2 hb.1 hb.2
      rw [hwd] at this; exact this
    subst hsnd
    simpa using writeLoop_snd args tp rest st1
      (fun u hu => h u (List.mem_cons_of_mem _ hu))

theorem writeLoop_fs_txt (args : Args) (tp : String) :
    ∀ (l : List (BoxXYXY × ℚ × ℕ)) (st : ObState) (n : String),
      (∀ t ∈ l, t.2.2 < args.names.length ∧ t.2.2 < args.colors.length) →
      (writeLoop args tp l st).1.fs.txt n =
        (if args.save_txt = true ∧ n = tp ++ ".txt"
         then st.fs.txt n ++ l.map (detLine st.img.width st.img.height)
         else st.fs.txt n)
  | [], st, n, _ => by
    by_cases hc : args.save_txt = true ∧ n = tp ++ ".txt" <;> simp [writeLoop, hc]
  | t :: rest, st, n, h => by
    unfold writeLoop
    rcases hwd : writeDet args tp st t.1 t.2.1 t.2.2 with ⟨st1, e⟩
    have hb := h t (List.mem_cons_self t rest)
    have hsnd : e = none := by
      have := writeDet_snd args tp st t.1 t.2.1 t.2.2 hb.1 hb.2
      rw [hwd] at this; exact this
    subst hsnd
    have htxt : st1.fs.txt n =
        (if args.save_txt = true ∧ n = tp ++ ".txt"
         then st.fs.txt n ++ [detLine st.img.width st.img.height t]
         else st.fs.txt n) := by
      have := writeDet_fs_txt args tp st t.1 t.2.1 t.2.2 n
      rw [hwd] at this; simpa using this
    have hdims : st1.img.height = st.img.height ∧ st1.img.width = st.img.width := by
      have := writeDet_dims args tp st t.1 t.2.1 t.2.2
      rw [hwd] at this; exact this
    have ih := writeLoop_fs_txt args tp rest st1 n
      (fun u hu => h u (List.mem_cons_of_mem _ hu))
    simp only []
    rw [ih, hdims.1, hdims.2, htxt]
    by_cases hc : args.save_txt = true ∧ n = tp ++ ".txt" <;> simp [hc]

theorem writeLoop_img (args : Args) (tp : String) :
    ∀ (l : List (BoxXYXY × ℚ × ℕ)) (st : ObState),
      (∀ t ∈ l, t.2.2 < args.names.length ∧ t.2.2 < args.colors.length) →
      (writeLoop args tp l st).1.img =
        (if (args.save_img || args.view_img) = true
         then { st.img with draws := st.img.draws ++ l.map (detDraw args) }
         else st.img)
  | [], st, _ => by
    by_cases hd : (args.save_img || args.view_img) = true <;> simp [writeLoop, hd]
  | t :: rest, st, h => by
    unfold writeLoop
    rcases hwd : writeDet args tp st t.1 t.2.1 t.2.2 with ⟨st1, e⟩
    have hb := h t (List.mem_cons_self t rest)
    have hsnd : e = none := by
      have := writeDet_snd args tp st t.1 t.2.1 t.2.2 hb.1 hb.2
      rw [hwd] at this; exact this
    subst hsnd
    have himg : st1.img =
        (if (args.save_img || args.view_img) = true
         then { st.img with draws := st.img.draws ++ [detDraw args t] }
         else st.img) := by
      have := writeDet_img args tp st t.1 t.2.1 t.2.2 hb.1 hb.2
      rw [hwd] at this; simpa using this
    have ih := writeLoop_img args tp rest st1
      (fun u hu => h u (List.mem_cons_of_mem _ hu))
    simp only []
    rw [ih, himg]
    by_cases hd : (args.save_img || args.view_img) = true <;> simp [hd]

theorem zip3_mem_labels {α β γ : Type} {as : List α} {bs : List β} {cs : List γ}
    {t : α × β × γ} (h : t ∈ zip3 as bs cs) : t.2.2 ∈ cs := by
  unfold zip3 at h
  rcases List.mem_map.mp h with ⟨u, hu, rfl⟩
  exact (List.of_mem_zip (List.of_mem_zip hu).2).2

theorem zip3_length {α β γ : Type} (as : List α) (bs : List β) (cs : List γ)
    (hb : bs.length = as.length) (hc : cs.length = as.length) :
    (zip3 as bs cs).length = as.length := by
  unfold zip3
  rw [List.length_map, List.length_zip, List.length_zip, hb, hc]
  omega

theorem finishFrame_snd (args : Args) (savePath line : String) (st : ObState) :
    (finishFrame args savePath line st).2 = none := by
  unfold finishFrame
  by_cases hc : args.save_img = true ∧ args.mode = "images" <;> simp [hc]

theorem procPred_some_ok (args : Args) (path : String) (tc : ℚ) (i : ℕ)
    (p : Prediction) (st : ObState)
    (hok : ∀ c ∈ p.labels, c < args.names.length ∧ c < args.colors.length) :
    procPred args path tc i (some p) st =
      finishFrame args (joinPath args.output_dir (pathName path))
        (framePrint args tc i st.img.height st.img.width (summaryStr args.names p.labels))
        ((writeLoop args (joinPath args.output_dir (pathStem path))
            (zip3 (p.boxes.map roundBox) p.scores p.labels)
            { st with lastPred := some (Prediction.mk (p.boxes.map roundBox) p.scores p.labels) }).1) := by
  have hzip : ∀ t ∈ zip3 (p.boxes.map roundBox) p.scores p.labels,
      t.2.2 < args.names.length ∧ t.2.2 < args.colors.length :=
    fun t ht => hok t.2.2 (zip3_mem_labels ht)
  unfold procPred
  simp only [predDictLen, Nat.lt_irrefl, if_pos (by omega : (0 : ℕ) < 3)]
  rw [classSummary_ok (fun c hc => (hok c hc).1)]
  rcases hwl : writeLoop args (joinPath args.output_dir (pathStem path))
      (zip3 (p.boxes.map roundBox) p.scores p.labels)
      { st with lastPred := some (Prediction.mk (p.boxes.map roundBox) p.scores p.labels) } with ⟨st2, e⟩
  have he : e = none := by
    have := writeLoop_snd args (joinPath args.output_dir (pathStem path))
      (zip3 (p.boxes.map roundBox) p.scores p.labels)
      { st with lastPred := some (Prediction.mk (p.boxes.map roundBox) p.scores p.labels) } hzip
    rw [hwl] at this; exact this
  subst he
  rfl

theorem finishFrame_fs_txt (args : Args) (sp line : String) (st : ObState) :
    (finishFrame args sp line st).1.fs.txt = st.fs.txt := by
  unfold finishFrame
  by_cases hc : args.save_img = true ∧ args.mode = "images" <;> simp [hc]

theorem finishFrame_fs_vid (args : Args) (sp line : String) (st : ObState) :
    (finishFrame args sp line st).1.fs.vid = st.fs.vid := by
  unfold finishFrame
  by_cases hc : args.save_img = true ∧ args.mode = "images" <;> simp [hc]

theorem finishFrame_img (args : Args) (sp line : String) (st : ObState) :
    (finishFrame args sp line st).1.img = st.img := by
  unfold finishFrame
  by_cases hc : args.save_img = true ∧ args.mode = "images" <;> simp [hc]

theorem finishFrame_lastPred (args : Args) (sp line : String) (st : ObState) :
    (finishFrame args sp line st).1.lastPred = st.lastPred := by
  unfold finishFrame
  by_cases hc : args.save_img = true ∧ args.mode = "images" <;> simp [hc]

theorem finishFrame_not_images (args : Args) (sp line : String) (st : ObState)
    (hm : args.mode ≠ "images") :
    (finishFrame args sp line st).1.fs = st.fs := by
  unfold finishFrame
  have hc : ¬ (args.save_img = true ∧ args.mode = "images") := fun h => hm h.2
  simp [hc]

theorem finishFrame_fs_img_pos (args : Args) (sp line : String) (st : ObState)
    (hs : args.save_img = true) (hm : args.mode = "images") (n : String) :
    (finishFrame args sp line st).1.fs.img n =
      (if n = sp then some st.img else st.fs.img n) := by
  unfold finishFrame
  simp [hs, hm]

theorem finishFrame_ev_display (args : Args) (sp line : String) (st : ObState) :
    (finishFrame args sp line st).1.ev.filter isDisplay = st.ev.filter isDisplay := by
  unfold finishFrame
  by_cases hc : args.save_img = true ∧ args.mode = "images" <;>
    simp [hc, List.filter_append, isDisplay]

theorem finishFrame_ev_txtLine (args : Args) (sp line : String) (st : ObState) :
    (finishFrame args sp line st).1.ev.filter isTxtLine = st.ev.filter isTxtLine := by
  unfold finishFrame
  by_cases hc : args.save_img = true ∧ args.mode = "images" <;>
    simp [hc, List.filter_append, isTxtLine]

/-- Claim C1: for every run whose frame source yields at least one frame,
the per-frame loop of `main` raises an unhandled exception on the first
frame — line 105 evaluates the name `inference`, which is neither defined
nor imported in `detect.py` — and the call of `overlay_boxes` at line 108
passes six positional arguments although `overlay_boxes` is defined with
five parameters; consequently no frame is ever processed to completion. -/
theorem C1_main_loop_crashes (frames : List ℕ) (h : frames ≠ []) :
    runMainLoop frames = Except.error (PyErr.nameError "inference") ∧
      resolvable "inference" = false ∧
      overlayBoxesCallArgCount = 6 ∧ overlayBoxesParamCount = 5 ∧
      overlayBoxesCallArgCount ≠ overlayBoxesParamCount := by
  refine ⟨?_, by decide, rfl, rfl, by decide⟩
  cases frames with
  | nil => exact absurd rfl h
  | cons f fs =>
    have hstep : mainLoopStep f = Except.error (PyErr.nameError "inference") := by
      unfold mainLoopStep
      have : resolvable "inference" = false := by decide
      rw [this]
      simp
    unfold runMainLoop
    rw [hstep]

/-- Closed instance of `C1_main_loop_crashes` on a one-frame run. -/
theorem C1_witness :
    ([0] : List ℕ) ≠ [] ∧
      (runMainLoop [0] = Except.error (PyErr.nameError "inference") ∧
        resolvable "inference" = false ∧
        overlayBoxesCallArgCount = 6 ∧ overlayBoxesParamCount = 5 ∧
        overlayBoxesCallArgCount ≠ overlayBoxesParamCount) :=
  ⟨by decide, C1_main_loop_crashes [0] (by decide)⟩

/-- Claim C2: the Coordinate Normalizer used for persisted labels maps a
corner-form box and positive frame dimensions `W, H` to
`cx=(xmin+xmax)/2/W`, `cy=(ymin+ymax)/2/H`, `w=(xmax-xmin)/W`,
`h=(ymax-ymin)/H`; in particular the box `(10,20,110,220)` on a 200x400
frame normalizes to `(0.3, 0.3, 0.5, 0.5)`. -/
theorem C2_normalizer (b : BoxXYXY) (W H : ℚ) (hW : 0 < W) (hH : 0 < H) :
    box_xyxy_to_cxcywh b W H =
      { cx := (b.xmin + b.xmax) / 2 / W, cy := (b.ymin + b.ymax) / 2 / H
        w := (b.xmax - b.xmin) / W, h := (b.ymax - b.ymin) / H } ∧
      box_xyxy_to_cxcywh { xmin := 10, ymin := 20, xmax := 110, ymax := 220 } 200 400
        = { cx := 3/10, cy := 3/10, w := 1/2, h := 1/2 } :=
  ⟨rfl, by norm_num [box_xyxy_to_cxcywh]⟩

/-- Closed instance of `C2_normalizer` at the documented example box. -/
theorem C2_witness :
    (0 : ℚ) < 200 ∧ (0 : ℚ) < 400 ∧
      (box_xyxy_to_cxcywh { xmin := 10, ymin := 20, xmax := 110, ymax := 220 } 200 400
          = { cx := (10 + 110) / 2 / 200, cy := (20 + 220) / 2 / 400
              w := (110 - 10) / 200, h := (220 - 20) / 400 } ∧
        box_xyxy_to_cxcywh { xmin := 10, ymin := 20, xmax := 110, ymax := 220 } 200 400
          = { cx := 3/10, cy := 3/10, w := 1/2, h := 1/2 }) :=
  ⟨by decide, by decide,
    C2_normalizer { xmin := 10, ymin := 20, xmax := 110, ymax := 220 } 200 400
      (by decide) (by decide)⟩

/-- Claim C4 fails as stated: the summary of lines 41-43 iterates
`labels.unique()`, which sorts, so for the label sequence `[5, 2]` the
summary reports class 2 ("car") before class 5 ("bus") although 5 is
encountered first; the first-encounter order the spec describes would
produce the opposite string. -/
theorem C4_counterexample :
    classSummary cocoNames6 [5, 2] = Except.ok "1 cars, 1 buss, " ∧
      firstOccurrences [5, 2] = [5, 2] ∧
      specSummaryFirstEncounter cocoNames6 [5, 2] = "1 buss, 1 cars, " ∧
      classSummary cocoNames6 [5, 2]
        ≠ Except.ok (specSummaryFirstEncounter cocoNames6 [5, 2]) := by
  refine ⟨?_, ?_, ?_, ?_⟩ <;> decide

/-- Claim C4 (amended): for every non-empty Frame Detection Set whose labels
are all valid indices, the Class Aggregator's summary lists each distinct
label exactly once with its count and pluralized class name, in ascending
numeric label order (the sorted order of `unique()`), not in
first-encounter order; for the label sequence `[2,2,5]` it reports label 2
with count 2 before label 5 with count 1. -/
theorem C4_summary_ascending (names : List String) (labels : List ℕ)
    (hne : labels ≠ []) (h : ∀ c ∈ labels, c < names.length) :
    classSummary names labels = Except.ok (summaryStr names labels) ∧
      List.Sorted (· < ·) (sortedUnique labels) ∧
      (sortedUnique labels).Nodup ∧
      (sortedUnique labels).toFinset = labels.toFinset :=
  ⟨classSummary_ok h, sortedUnique_sorted labels, sortedUnique_nodup labels, by
    ext c
    simp [List.mem_toFinset, mem_sortedUnique]⟩

/-- Closed instance of `C4_summary_ascending` on the label sequence
`[2,2,5]`: the summary is `"2 cars, 1 buss, "` — label 2 with count 2
before label 5 with count 1. -/
theorem C4_witness :
    (([2, 2, 5] : List ℕ) ≠ [] ∧ ∀ c ∈ ([2, 2, 5] : List ℕ), c < cocoNames6.length) ∧
      (classSummary cocoNames6 [2, 2, 5] = Except.ok (summaryStr cocoNames6 [2, 2, 5]) ∧
        List.Sorted (· < ·) (sortedUnique [2, 2, 5]) ∧
        (sortedUnique [2, 2, 5]).Nodup ∧
        (sortedUnique [2, 2, 5]).toFinset = ([2, 2, 5] : List ℕ).toFinset) ∧
      summaryStr cocoNames6 [2, 2, 5] = "2 cars, 1 buss, " :=
  ⟨⟨by decide, by decide⟩,
    C4_summary_ascending cocoNames6 [2, 2, 5] (by decide) (by decide),
    by decide⟩

/-- Claim C5: a frame containing a detection whose label exceeds the Class
Name Table's highest valid index makes its processing terminate with a fatal
`IndexError` raised by the class-summary indexing of lines 41-43, before any
label line is appended, any image is written, any overlay is drawn or any
event is emitted for that frame. -/
theorem C5_bad_label_fatal (args : Args) (path : String) (tc : ℚ) (i : ℕ)
    (p : Prediction) (st : ObState) (bad : ℕ) (hmem : bad ∈ p.labels)
    (hge : args.names.length ≤ bad) :
    procPred args path tc i (some p) st =
      ({ st with lastPred := some (Prediction.mk (p.boxes.map roundBox) p.scores p.labels) },
        some PyErr.indexError) ∧
      (procPred args path tc i (some p) st).1.fs.txt = st.fs.txt ∧
      (procPred args path tc i (some p) st).1.fs.img = st.fs.img ∧
      (procPred args path tc i (some p) st).1.fs.vid = st.fs.vid ∧
      (procPred args path tc i (some p) st).1.ev = st.ev ∧
      (procPred args path tc i (some p) st).1.img = st.img := by
  have hcs := classSummary_err hmem hge
  have hmain : procPred args path tc i (some p) st =
      ({ st with lastPred := some (Prediction.mk (p.boxes.map roundBox) p.scores p.labels) },
        some PyErr.indexError) := by
    unfold procPred
    simp only [predDictLen, if_pos (by omega : (0 : ℕ) < 3)]
    rw [hcs]
  exact ⟨hmain, by rw [hmain], by rw [hmain], by rw [hmain], by rw [hmain], by rw [hmain]⟩

/-- Closed instance of `C5_bad_label_fatal`: label 9 on the six-entry name
table aborts the frame with `IndexError` and leaves every output untouched. -/
theorem C5_witness :
    (9 ∈ predBad.labels ∧ args0.names.length ≤ 9) ∧
      (procPred args0 "d/im.jpg" 0 0 (some predBad) st0 =
        ({ st0 with lastPred := some (Prediction.mk (predBad.boxes.map roundBox) predBad.scores predBad.labels) },
          some PyErr.indexError) ∧
        (procPred args0 "d/im.jpg" 0 0 (some predBad) st0).1.fs.txt = st0.fs.txt ∧
        (procPred args0 "d/im.jpg" 0 0 (some predBad) st0).1.fs.img = st0.fs.img ∧
        (procPred args0 "d/im.jpg" 0 0 (some predBad) st0).1.fs.vid = st0.fs.vid ∧
        (procPred args0 "d/im.jpg" 0 0 (some predBad) st0).1.ev = st0.ev ∧
        (procPred args0 "d/im.jpg" 0 0 (some predBad) st0).1.img = st0.img) :=
  ⟨⟨by decide, by decide⟩,
    C5_bad_label_fatal args0 "d/im.jpg" 0 0 predBad st0 9 (by decide) (by decide)⟩

/-- Claim C3: a frame whose Frame Detection Set is empty (the prediction
dict with all three tensors empty) is processed to completion: the class
summary is empty, no label line is written, nothing is drawn, the image
output is still produced in images mode showing the un-annotated frame, and
`overlay_boxes` returns normally with empty result lists. -/
theorem C3_empty_set (args : Args) (path : String) (img : Frame) (tc : ℚ) (fs : FS)
    (hs : args.save_img = true) (hm : args.mode = "images") :
    (overlay_boxes [some (Prediction.mk [] [] [])] path img tc args fs).2
        = Except.ok ([], [], []) ∧
      classSummary args.names [] = Except.ok "" ∧
      ((overlay_boxes [some (Prediction.mk [] [] [])] path img tc args fs).1.ev.filter
        isTxtLine) = [] ∧
      (overlay_boxes [some (Prediction.mk [] [] [])] path img tc args fs).1.img = img ∧
      (overlay_boxes [some (Prediction.mk [] [] [])] path img tc args fs).1.fs.img
          (joinPath args.output_dir (pathName path)) = some img := by
  have hpp : procPred args path tc 0 (some (Prediction.mk [] [] []))
        (ObState.mk fs [] img none) =
      finishFrame args (joinPath args.output_dir (pathName path))
        (framePrint args tc 0 img.height img.width (summaryStr args.names []))
        (ObState.mk fs [] img (some (Prediction.mk [] [] []))) := by
    have := procPred_some_ok args path tc 0 (Prediction.mk [] [] [])
      (ObState.mk fs [] img none) (fun c hc => absurd hc (List.not_mem_nil c))
    simpa [writeLoop, zip3] using this
  have hob : overlay_boxes [some (Prediction.mk [] [] [])] path img tc args fs =
      ((finishFrame args (joinPath args.output_dir (pathName path))
          (framePrint args tc 0 img.height img.width (summaryStr args.names []))
          (ObState.mk fs [] img (some (Prediction.mk [] [] [])))).1,
        Except.ok ([], [], [])) := by
    simp only [overlay_boxes, obLoop]
    rw [hpp]
    rcases hff : finishFrame args (joinPath args.output_dir (pathName path))
        (framePrint args tc 0 img.height img.width (summaryStr args.names []))
        (ObState.mk fs [] img (some (Prediction.mk [] [] []))) with ⟨stF, eF⟩
    have heF : eF = none := by
      have := finishFrame_snd args (joinPath args.output_dir (pathName path))
        (framePrint args tc 0 img.height img.width (summaryStr args.names []))
        (ObState.mk fs [] img (some (Prediction.mk [] [] [])))
      rw [hff] at this; exact this
    have hlp : stF.lastPred = some (Prediction.mk [] [] []) := by
      have := finishFrame_lastPred args (joinPath args.output_dir (pathName path))
        (framePrint args tc 0 img.height img.width (summaryStr args.names []))
        (ObState.mk fs [] img (some (Prediction.mk [] [] [])))
      rw [hff] at this; exact this
    subst heF
    simp only [obLoop]
    rw [hlp]
  refine ⟨by rw [hob], rfl, ?_, ?_, ?_⟩
  · rw [hob]
    have := finishFrame_ev_txtLine args (joinPath args.output_dir (pathName path))
      (framePrint args tc 0 img.height img.width (summaryStr args.names []))
      (ObState.mk fs [] img (some (Prediction.mk [] [] [])))
    simpa using this
  · rw [hob]
    exact finishFrame_img args (joinPath args.output_dir (pathName path))
      (framePrint args tc 0 img.height img.width (summaryStr args.names []))
      (ObState.mk fs [] img (some (Prediction.mk [] [] [])))
  · rw [hob]
    rw [finishFrame_fs_img_pos args (joinPath args.output_dir (pathName path))
      (framePrint args tc 0 img.height img.width (summaryStr args.names []))
      (ObState.mk fs [] img (some (Prediction.mk [] [] []))) hs hm
      (joinPath args.output_dir (pathName path))]
    simp

/-- Closed instance of `C3_empty_set` on a concrete frame and path. -/
theorem C3_witness :
    (args0.save_img = true ∧ args0.mode = "images") ∧
      ((overlay_boxes [some (Prediction.mk [] [] [])] "d/im.jpg" frame0 0 args0 fs0).2
          = Except.ok ([], [], []) ∧
        classSummary args0.names [] = Except.ok "" ∧
        ((overlay_boxes [some (Prediction.mk [] [] [])] "d/im.jpg" frame0 0 args0 fs0).1.ev.filter
          isTxtLine) = [] ∧
        (overlay_boxes [some (Prediction.mk [] [] [])] "d/im.jpg" frame0 0 args0 fs0).1.img
          = frame0 ∧
        (overlay_boxes [some (Prediction.mk [] [] [])] "d/im.jpg" frame0 0 args0 fs0).1.fs.img
            (joinPath args0.output_dir (pathName "d/im.jpg")) = some frame0) :=
  ⟨⟨by decide, by decide⟩,
    C3_empty_set args0 "d/im.jpg" frame0 0 fs0 (by decide) (by decide)⟩

/-- Claim C6: with `save_txt` set, each detection appends exactly one
normalized label line (`renderLine`: class id then the four center-form
coordinates, space separated) to the text file named after the frame's
source stem in the output directory; the file is opened in append mode, so
the lines of one frame accumulate and a second run over the same output
directory exactly doubles the line count. -/
theorem C6_save_txt_append (args : Args) (path : String) (tc : ℚ) (i : ℕ)
    (p : Prediction) (st : ObState) (fname : String)
    (hst : args.save_txt = true)
    (hsc : p.scores.length = p.boxes.length)
    (hlb : p.labels.length = p.boxes.length)
    (hok : ∀ c ∈ p.labels, c < args.names.length ∧ c < args.colors.length)
    (hempty : st.fs.txt (joinPath args.output_dir (pathStem path) ++ ".txt") = [])
    (hne : fname ≠ joinPath args.output_dir (pathStem path) ++ ".txt") :
    (procPred args path tc i (some p) st).2 = none ∧
      (procPred args path tc i (some p) st).1.fs.txt
          (joinPath args.output_dir (pathStem path) ++ ".txt")
        = (zip3 (p.boxes.map roundBox) p.scores p.labels).map
            (detLine st.img.width st.img.height) ∧
      ((zip3 (p.boxes.map roundBox) p.scores p.labels).map
          (detLine st.img.width st.img.height)).length = p.boxes.length ∧
      (procPred args path tc i (some p) st).1.fs.txt fname = st.fs.txt fname ∧
      ((procPred args path tc i (some p)
            { (procPred args path tc i (some p) st).1 with img := st.img }).1.fs.txt
          (joinPath args.output_dir (pathStem path) ++ ".txt")).length
        = 2 * p.boxes.length := by
  have hokz : ∀ t ∈ zip3 (p.boxes.map roundBox) p.scores p.labels,
      t.2.2 < args.names.length ∧ t.2.2 < args.colors.length :=
    fun t ht => hok t.2.2 (zip3_mem_labels ht)
  have hlen : ((zip3 (p.boxes.map roundBox) p.scores p.labels).map
      (detLine st.img.width st.img.height)).length = p.boxes.length := by
    rw [List.length_map,
      zip3_length _ _ _ (by rw [hsc, List.length_map]) (by rw [hlb, List.length_map]),
      List.length_map]
  have key : ∀ (stX : ObState) (n : String),
      (procPred args path tc i (some p) stX).1.fs.txt n =
        (if args.save_txt = true ∧ n = joinPath args.output_dir (pathStem path) ++ ".txt"
         then stX.fs.txt n ++ (zip3 (p.boxes.map roundBox) p.scores p.labels).map
            (detLine stX.img.width stX.img.height)
         else stX.fs.txt n) := by
    intro stX n
    rw [procPred_some_ok args path tc i p stX hok, finishFrame_fs_txt,
      writeLoop_fs_txt args (joinPath args.output_dir (pathStem path))
        (zip3 (p.boxes.map roundBox) p.scores p.labels)
        { stX with lastPred := some (Prediction.mk (p.boxes.map roundBox) p.scores p.labels) }
        n hokz]
  refine ⟨?_, ?_, hlen, ?_, ?_⟩
  · rw [procPred_some_ok args path tc i p st hok]
    exact finishFrame_snd _ _ _ _
  · rw [key st (joinPath args.output_dir (pathStem path) ++ ".txt"),
      if_pos ⟨hst, rfl⟩, hempty]
    simp
  · rw [key st fname, if_neg (fun h => hne h.2)]
  · rw [key { (procPred args path tc i (some p) st).1 with img := st.img }
      (joinPath args.output_dir (pathStem path) ++ ".txt"), if_pos ⟨hst, rfl⟩]
    simp only [List.length_append, List.length_map]
    have h1 : ({ (procPred args path tc i (some p) st).1 with img := st.img } : ObState).fs.txt
        (joinPath args.output_dir (pathStem path) ++ ".txt")
        = (procPred args path tc i (some p) st).1.fs.txt
          (joinPath args.output_dir (pathStem path) ++ ".txt") := rfl
    rw [h1, key st (joinPath args.output_dir (pathStem path) ++ ".txt"),
      if_pos ⟨hst, rfl⟩, hempty]
    have h2 : (zip3 (p.boxes.map roundBox) p.scores p.labels).length = p.boxes.length := by
      rw [zip3_length _ _ _ (by rw [hsc, List.length_map]) (by rw [hlb, List.length_map]),
        List.length_map]
    simp [h2]
    omega

/-- Closed instance of `C6_save_txt_append`: one detection appends one line
to `out/im.txt`, a second run doubles the count to two. -/
theorem C6_witness :
    (args0.save_txt = true ∧ pred1.scores.length = pred1.boxes.length ∧
      pred1.labels.length = pred1.boxes.length ∧
      (∀ c ∈ pred1.labels, c < args0.names.length ∧ c < args0.colors.length) ∧
      st0.fs.txt (joinPath args0.output_dir (pathStem "d/im.jpg") ++ ".txt") = [] ∧
      ("other.txt" : String) ≠ joinPath args0.output_dir (pathStem "d/im.jpg") ++ ".txt") ∧
      ((procPred args0 "d/im.jpg" 0 0 (some pred1) st0).2 = none ∧
        (procPred args0 "d/im.jpg" 0 0 (some pred1) st0).1.fs.txt
            (joinPath args0.output_dir (pathStem "d/im.jpg") ++ ".txt")
          = (zip3 (pred1.boxes.map roundBox) pred1.scores pred1.labels).map
              (detLine st0.img.width st0.img.height) ∧
        ((zip3 (pred1.boxes.map roundBox) pred1.scores pred1.labels).map
            (detLine st0.img.width st0.img.height)).length = pred1.boxes.length ∧
        (procPred args0 "d/im.jpg" 0 0 (some pred1) st0).1.fs.txt "other.txt"
          = st0.fs.txt "other.txt" ∧
        ((procPred args0 "d/im.jpg" 0 0 (some pred1)
              { (procPred args0 "d/im.jpg" 0 0 (some pred1) st0).1 with img := st0.img }).1.fs.txt
            (joinPath args0.output_dir (pathStem "d/im.jpg") ++ ".txt")).length
          = 2 * pred1.boxes.length) :=
  ⟨⟨by decide, by decide, by decide, by decide, by decide, by decide⟩,
    C6_save_txt_append args0 "d/im.jpg" 0 0 pred1 st0 "other.txt"
      (by decide) (by decide) (by decide) (by decide) (by decide) (by decide)⟩

/-- Claim C7 fails as stated: a frame processed in video mode with
`save_img` set is appended to no video writer — `detect.py` creates no
`cv2.VideoWriter` at all — and produces no image file either; the frame is
processed without error and every persistent media store is left untouched. -/
theorem C7_counterexample :
    argsVideo.save_img = true ∧ argsVideo.mode = "video" ∧
      (procPred argsVideo "clip.mp4" 0 0 (some pred1) st0).2 = none ∧
      (procPred argsVideo "clip.mp4" 0 0 (some pred1) st0).1.fs.vid "clip.mp4" = [] ∧
      (procPred argsVideo "clip.mp4" 0 0 (some pred1) st0).1.fs.vid
        (joinPath "out" "clip.mp4") = [] ∧
      (procPred argsVideo "clip.mp4" 0 0 (some pred1) st0).1.fs.img
        (joinPath "out" "clip.mp4") = none := by
  refine ⟨rfl, rfl, ?_, ?_, ?_, ?_⟩ <;> with_unfolding_all decide

/-- Claim C7 (amended): when the source mode is not `"images"` (video or
stream), `overlay_boxes` persists nothing at all: `detect.py` has no video
writer, and its only media write — the `cv2.imwrite` of lines 61-62 — is
guarded by `mode == 'images'`, so the image store and the video store are
left exactly as they were. -/
theorem C7_no_video_output (args : Args) (path : String) (tc : ℚ) (i : ℕ)
    (pr : Option Prediction) (st : ObState) (hm : args.mode ≠ "images") :
    (procPred args path tc i pr st).1.fs.img = st.fs.img ∧
      (procPred args path tc i pr st).1.fs.vid = st.fs.vid := by
  cases pr with
  | none =>
    unfold procPred
    rw [finishFrame_not_images args _ _ _ hm]
    exact ⟨rfl, rfl⟩
  | some p =>
    unfold procPred
    simp only [predDictLen, if_pos (by omega : (0 : ℕ) < 3)]
    rcases hcs : classSummary args.names p.labels with e | cSum
    · exact ⟨rfl, rfl⟩
    · rcases hwl : writeLoop args (joinPath args.output_dir (pathStem path))
          (zip3 (p.boxes.map roundBox) p.scores p.labels)
          { st with lastPred := some (Prediction.mk (p.boxes.map roundBox) p.scores p.labels) }
          with ⟨st2, e2⟩
      have hg : st2.fs.img = st.fs.img ∧ st2.fs.vid = st.fs.vid := by
        have h1 := writeLoop_fs_img args (joinPath args.output_dir (pathStem path))
          (zip3 (p.boxes.map roundBox) p.scores p.labels)
          { st with lastPred := some (Prediction.mk (p.boxes.map roundBox) p.scores p.labels) }
        have h2 := writeLoop_fs_vid args (joinPath args.output_dir (pathStem path))
          (zip3 (p.boxes.map roundBox) p.scores p.labels)
          { st with lastPred := some (Prediction.mk (p.boxes.map roundBox) p.scores p.labels) }
        rw [hwl] at h1 h2
        exact ⟨h1, h2⟩
      cases e2 with
      | some e => exact hg
      | none =>
        rw [finishFrame_not_images args _ _ _ hm]
        exact hg

/-- Closed instance of `C7_no_video_output` in video mode. -/
theorem C7_witness :
    argsVideo.mode ≠ "images" ∧
      ((procPred argsVideo "clip.mp4" 0 0 (some pred1) st0).1.fs.img = st0.fs.img ∧
        (procPred argsVideo "clip.mp4" 0 0 (some pred1) st0).1.fs.vid = st0.fs.vid) :=
  ⟨by decide, C7_no_video_output argsVideo "clip.mp4" 0 0 (some pred1) st0 (by decide)⟩

/-- Claim C8 fails as stated: with `view_img` set a frame is processed to
completion, the box is drawn onto the in-memory frame, yet no display
happens — `detect.py` contains no `cv2.imshow` or `cv2.waitKey` — so no
quit signal is ever checked and interactive cancellation is impossible. -/
theorem C8_counterexample :
    argsView.view_img = true ∧
      (procPred argsView "d/im.jpg" 0 0 (some pred1) st0).2 = none ∧
      ((procPred argsView "d/im.jpg" 0 0 (some pred1) st0).1.ev.filter isDisplay) = [] ∧
      (procPred argsView "d/im.jpg" 0 0 (some pred1) st0).1.img.draws.length = 1 := by
  refine ⟨rfl, ?_, ?_, ?_⟩ <;> with_unfolding_all decide

/-- Claim C8 (amended): no frame iteration ever displays a frame, whatever
the flags: the event trace of `overlay_boxes`'s per-frame body never gains a
display event, so no interactive quit signal exists and the Run Driver's
loop can end only by exhausting its source (or by the unhandled error of
C1); `view_img`'s only effect is enabling drawing. -/
theorem C8_no_display (args : Args) (path : String) (tc : ℚ) (i : ℕ)
    (pr : Option Prediction) (st : ObState) :
    (procPred args path tc i pr st).1.ev.filter isDisplay = st.ev.filter isDisplay := by
  cases pr with
  | none =>
    unfold procPred
    rw [finishFrame_ev_display]
  | some p =>
    unfold procPred
    simp only [predDictLen, if_pos (by omega : (0 : ℕ) < 3)]
    rcases hcs : classSummary args.names p.labels with e | cSum
    · rfl
    · rcases hwl : writeLoop args (joinPath args.output_dir (pathStem path))
          (zip3 (p.boxes.map roundBox) p.scores p.labels)
          { st with lastPred := some (Prediction.mk (p.boxes.map roundBox) p.scores p.labels) }
          with ⟨st2, e2⟩
      have hg : st2.ev.filter isDisplay = st.ev.filter isDisplay := by
        have := writeLoop_ev_display args (joinPath args.output_dir (pathStem path))
          (zip3 (p.boxes.map roundBox) p.scores p.labels)
          { st with lastPred := some (Prediction.mk (p.boxes.map roundBox) p.scores p.labels) }
        rw [hwl] at this
        exact this
      cases e2 with
      | some e => exact hg
      | none =>
        rw [finishFrame_ev_display]
        exact hg

/-- Claim C9: with `save_img` set in images mode, the annotated frame is
stored under the output file named after the frame's source filename in the
output directory, and the store is an overwrite — the value found at that
path after processing does not depend on what any earlier run left there, so
a second run leaves only its own image. -/
theorem C9_images_overwrite (args : Args) (path : String) (tc : ℚ) (i : ℕ)
    (p : Prediction) (st : ObState) (fs1 fs2 : FS)
    (hs : args.save_img = true) (hm : args.mode = "images")
    (hok : ∀ c ∈ p.labels, c < args.names.length ∧ c < args.colors.length) :
    (procPred args path tc i (some p) { st with fs := fs1 }).2 = none ∧
      (procPred args path tc i (some p) { st with fs := fs1 }).1.fs.img
          (joinPath args.output_dir (pathName path))
        = some ((procPred args path tc i (some p) { st with fs := fs1 }).1.img) ∧
      (procPred args path tc i (some p) { st with fs := fs1 }).1.fs.img
          (joinPath args.output_dir (pathName path))
        = (procPred args path tc i (some p) { st with fs := fs2 }).1.fs.img
            (joinPath args.output_dir (pathName path)) := by
  have hokz : ∀ t ∈ zip3 (p.boxes.map roundBox) p.scores p.labels,
      t.2.2 < args.names.length ∧ t.2.2 < args.colors.length :=
    fun t ht => hok t.2.2 (zip3_mem_labels ht)
  have key : ∀ (fsX : FS),
      (procPred args path tc i (some p) { st with fs := fsX }).2 = none ∧
      (procPred args path tc i (some p) { st with fs := fsX }).1.img =
        (if (args.save_img || args.view_img) = true
         then { st.img with draws := st.img.draws ++
            (zip3 (p.boxes.map roundBox) p.scores p.labels).map (detDraw args) }
         else st.img) ∧
      (procPred args path tc i (some p) { st with fs := fsX }).1.fs.img
          (joinPath args.output_dir (pathName path)) =
        some ((procPred args path tc i (some p) { st with fs := fsX }).1.img) := by
    intro fsX
    rw [procPred_some_ok args path tc i p { st with fs := fsX } hok]
    refine ⟨finishFrame_snd _ _ _ _, ?_, ?_⟩
    · rw [finishFrame_img]
      have := writeLoop_img args (joinPath args.output_dir (pathStem path))
        (zip3 (p.boxes.map roundBox) p.scores p.labels)
        { { st with fs := fsX } with
            lastPred := some (Prediction.mk (p.boxes.map roundBox) p.scores p.labels) } hokz
      simpa using this
    · rw [finishFrame_fs_img_pos _ _ _ _ hs hm, if_pos rfl, finishFrame_img]
  obtain ⟨h1a, h1b, h1c⟩ := key fs1
  obtain ⟨h2a, h2b, h2c⟩ := key fs2
  exact ⟨h1a, h1c, by rw [h1c, h2c, h1b, h2b]⟩

/-- Closed instance of `C9_images_overwrite`: starting from an empty store
and from a store already holding a stale `out/im.jpg`, both runs end with
the same freshly annotated image at `out/im.jpg`. -/
theorem C9_witness :
    (args0.save_img = true ∧ args0.mode = "images" ∧
      (∀ c ∈ pred1.labels, c < args0.names.length ∧ c < args0.colors.length)) ∧
      ((procPred args0 "d/im.jpg" 0 0 (some pred1) { st0 with fs := fs0 }).2 = none ∧
        (procPred args0 "d/im.jpg" 0 0 (some pred1) { st0 with fs := fs0 }).1.fs.img
            (joinPath args0.output_dir (pathName "d/im.jpg"))
          = some ((procPred args0 "d/im.jpg" 0 0 (some pred1) { st0 with fs := fs0 }).1.img) ∧
        (procPred args0 "d/im.jpg" 0 0 (some pred1) { st0 with fs := fs0 }).1.fs.img
            (joinPath args0.output_dir (pathName "d/im.jpg"))
          = (procPred args0 "d/im.jpg" 0 0 (some pred1) { st0 with fs := fsStale }).1.fs.img
              (joinPath args0.output_dir (pathName "d/im.jpg"))) :=
  ⟨⟨by decide, by decide, by decide⟩,
    C9_images_overwrite args0 "d/im.jpg" 0 0 pred1 st0 fs0 fsStale
      (by decide) (by decide) (by decide)⟩

/-- Claim C10: the palette of line 96 holds exactly one RGB triple (three
values below 256) per entry of the Class Name Table, and the color drawn for
a detection of a given label is the palette entry at that label — the same
triple whatever the frame or state, since `args.colors` is built once before
the loop and never modified. -/
theorem C10_palette_stable (names : List String) (rand : ℕ → ℕ) (args : Args)
    (txtF : String) (stA stB : ObState) (b : BoxXYXY) (conf : ℚ) (cls : ℕ)
    (hd : (args.save_img || args.view_img) = true)
    (h1 : cls < args.names.length) (h2 : cls < args.colors.length) :
    (mkColors names rand).length = names.length ∧
      ((mkColors names rand).all
        (fun c => c.length == 3 && c.all (fun v => decide (v < 256)))) = true ∧
      (writeDet args txtF stA b conf cls).1.img.draws
        = stA.img.draws ++ [detDraw args (b, conf, cls)] ∧
      (writeDet args txtF stB b conf cls).1.img.draws
        = stB.img.draws ++ [detDraw args (b, conf, cls)] ∧
      (detDraw args (b, conf, cls)).color = args.colors.getD cls [] := by
  refine ⟨by simp [mkColors], ?_, ?_, ?_, rfl⟩
  · rw [List.all_eq_true]
    intro c hc
    rw [mkColors] at hc
    rcases List.mem_map.mp hc with ⟨i, hi, rfl⟩
    rw [Bool.and_eq_true]
    refine ⟨by simp, ?_⟩
    rw [List.all_eq_true]
    intro v hv
    rcases List.mem_map.mp hv with ⟨j, hj, rfl⟩
    rw [decide_eq_true_eq]
    exact Nat.mod_lt _ (by omega)
  · rw [writeDet_img args txtF stA b conf cls h1 h2, if_pos hd]
  · rw [writeDet_img args txtF stB b conf cls h1 h2, if_pos hd]

/-- Closed instance of `C10_palette_stable` on two different states: the
same palette entry is used in both. -/
theorem C10_witness :
    ((args0.save_img || args0.view_img) = true ∧
      2 < args0.names.length ∧ 2 < args0.colors.length) ∧
      ((mkColors cocoNames6 (fun n => 37 * n)).length = cocoNames6.length ∧
        ((mkColors cocoNames6 (fun n => 37 * n)).all
          (fun c => c.length == 3 && c.all (fun v => decide (v < 256)))) = true ∧
        (writeDet args0 "out/im" st0 (BoxXYXY.mk 10 20 110 220) (9/10) 2).1.img.draws
          = st0.img.draws ++ [detDraw args0 (BoxXYXY.mk 10 20 110 220, 9/10, 2)] ∧
        (writeDet args0 "out/im"
            (ObState.mk fs0 [] (Frame.mk 100 200 9 []) none)
            (BoxXYXY.mk 10 20 110 220) (9/10) 2).1.img.draws
          = (ObState.mk fs0 [] (Frame.mk 100 200 9 []) none).img.draws
              ++ [detDraw args0 (BoxXYXY.mk 10 20 110 220, 9/10, 2)] ∧
        (detDraw args0 (BoxXYXY.mk 10 20 110 220, 9/10, 2)).color
          = args0.colors.getD 2 []) :=
  ⟨⟨by decide, by decide, by decide⟩,
    C10_palette_stable cocoNames6 (fun n => 37 * n) args0 "out/im" st0
      (ObState.mk fs0 [] (Frame.mk 100 200 9 []) none)
      (BoxXYXY.mk 10 20 110 220) (9/10) 2 (by decide) (by decide) (by decide)⟩
